import Mathlib

/-!
Verification development for the learning-copilot repository.

This file gives a shallow embedding of the two components the specification
singles out — the completion adapter (`backend/ai_engine.py`) and the sqlite
persistence layer (`backend/database.py`) — and proves or refutes the frozen
claims about them.

Conventions of the embedding:
* Pure Python code becomes Lean functions; the remote completion client
  (`self.client.chat.completions.create`) is an oracle parameter
  `submit : Params → Except String String`, and a raised exception is the
  `Except.error` case carrying `str(e)`.
* The Python `json` module is modelled by an executable JSON value type with a
  serializer (`dumps`) and a fueled recursive-descent parser (`loads`).
  Numbers are integers and the `ensure_ascii` \uXXXX re-encoding of `dumps`
  is not modelled (strings are emitted with only the two mandatory escapes);
  neither restriction affects the claims, which concern the success/sentinel
  shape and the parse-of-serialize round trip.
* The sqlite tables become lists of row structures inside `DBState`;
  `CURRENT_TIMESTAMP` becomes a logical clock, `AUTOINCREMENT` a per-table
  counter, and a `SELECT ... fetchone()` becomes `List.find?`.
-/

/-! ## Completion adapter (`AIEngine`, backend/ai_engine.py) -/

/-- A chat message, one element of the `messages` list. -/
structure Message where
  role : String
  content : String
  deriving DecidableEq

/-- The configured engine state set up by `AIEngine.__init__`:
`self.model`, `self.temperature`, `self.max_tokens`. -/
structure AIEngine where
  model : String
  temperature : Rat
  max_tokens : Nat
  deriving DecidableEq

/-- The keyword-argument dictionary `params` built by `generate_completion`.
A field that is `none` models a key absent from the dict. -/
structure Params where
  model : String
  messages : List Message
  temperature : Option Rat := none
  max_tokens : Option Nat := none
  max_completion_tokens : Option Nat := none
  verbosity : Option String := none
  reasoning_effort : Option String := none
  response_format : Option String := none
  deriving DecidableEq

/-- Test that `needle` is a prefix of `hay` (over character lists). -/
def startsWithL : List Char → List Char → Bool
  | [], _ => true
  | _ :: _, [] => false
  | n :: ns, h :: hs => n = h && startsWithL ns hs

/-- Python's `s.startswith(pre)`. -/
def strStartsWith (s pre : String) : Bool :=
  startsWithL pre.data s.data

/-- Test that `needle` occurs as a contiguous substring of `hay`. -/
def containsL (needle : List Char) : List Char → Bool
  | [] => startsWithL needle []
  | h :: hs => startsWithL needle (h :: hs) || containsL needle hs

/-- Python's `needle in hay` on strings. -/
def strContains (hay needle : String) : Bool :=
  containsL needle.data hay.data

/-- Python's `x or d` for an optional int argument: `None` and the falsy
value `0` both fall back to the default. -/
def orElseNat (x : Option Nat) (d : Nat) : Nat :=
  match x with
  | some v => if v = 0 then d else v
  | none => d

/-- Python's `x or d` for an optional float argument: `None` and the falsy
value `0.0` both fall back to the default. -/
def orElseRat (x : Option Rat) (d : Rat) : Rat :=
  match x with
  | some v => if v = 0 then d else v
  | none => d

/-- The `params` dict as built by `generate_completion` before submission
(ai_engine.py lines 33–53): dispatch on the configured model's prefix,
then attach `response_format` when the caller passed a truthy one. -/
def buildParams (eng : AIEngine) (messages : List Message)
    (temperature : Option Rat) (max_tokens : Option Nat)
    (verbosity reasoning_effort : String)
    (response_format : Option String) : Params :=
  let base : Params := { model := eng.model, messages := messages }
  let p :=
    if strStartsWith eng.model "gpt-5" then
      { base with
          max_completion_tokens := some (orElseNat max_tokens eng.max_tokens),
          verbosity := some verbosity,
          reasoning_effort := some reasoning_effort }
    else if strStartsWith eng.model "o1" then
      { base with
          max_completion_tokens := some (orElseNat max_tokens eng.max_tokens) }
    else
      { base with
          temperature := some (orElseRat temperature eng.temperature),
          max_tokens := some (orElseNat max_tokens eng.max_tokens) }
  match response_format with
  | some rf => { p with response_format := some rf }
  | none => p

/-- Model of `params["max_completion_tokens"] = params.pop("max_tokens")`. -/
def renameMaxTokens (p : Params) : Params :=
  { p with max_tokens := none, max_completion_tokens := p.max_tokens }

/-- The retry condition of the `except` block:
`"max_tokens" in str(e) and "max_completion_tokens" in str(e)`. -/
def bothFieldNames (msg : String) : Bool :=
  strContains msg "max_tokens" && strContains msg "max_completion_tokens"

/-- Model of `AIEngine.generate_completion`, with the remote call abstracted as
`submit`.  Returns the outcome together with the list of requests actually
submitted, in order (the attempt trace). -/
def generate_completion (submit : Params → Except String String)
    (eng : AIEngine) (messages : List Message)
    (temperature : Option Rat) (max_tokens : Option Nat)
    (verbosity reasoning_effort : String)
    (response_format : Option String) :
    Except String String × List Params :=
  let p := buildParams eng messages temperature max_tokens
             verbosity reasoning_effort response_format
  match submit p with
  | .ok text => (.ok text, [p])
  | .error e =>
    if bothFieldNames e then
      if p.max_tokens.isSome then
        let p2 := renameMaxTokens p
        match submit p2 with
        | .ok text => (.ok text, [p, p2])
        | .error e2 => (.error e2, [p, p2])
      else (.error e, [p])
    else (.error e, [p])

/-! ## JSON values (`json.dumps` / `json.loads`) -/

mutual
/-- A JSON value, the result type of `json.loads`. -/
inductive Json where
  | null : Json
  | bool : Bool → Json
  | num : Int → Json
  | str : String → Json
  | arr : JsonList → Json
  | obj : JsonObj → Json
  deriving DecidableEq
/-- The element list of a JSON array. -/
inductive JsonList where
  | nil : JsonList
  | cons : Json → JsonList → JsonList
  deriving DecidableEq
/-- The key/value list of a JSON object (insertion order, as in a dict). -/
inductive JsonObj where
  | nil : JsonObj
  | cons : String → Json → JsonObj → JsonObj
  deriving DecidableEq
end

/-- The decimal digit character for `d % 10`-style values. -/
def digitChar : Nat → Char
  | 0 => '0'
  | 1 => '1'
  | 2 => '2'
  | 3 => '3'
  | 4 => '4'
  | 5 => '5'
  | 6 => '6'
  | 7 => '7'
  | 8 => '8'
  | 9 => '9'
  | _ => '0'

/-- Decimal representation of a natural number, most significant digit first. -/
def natChars (n : Nat) : List Char :=
  if n = 0 then ['0'] else ((Nat.digits 10 n).map digitChar).reverse

/-- Decimal representation of an integer. -/
def intChars : Int → List Char
  | .ofNat n => natChars n
  | .negSucc m => '-' :: natChars (m + 1)

/-- Serialization of one character inside a JSON string: the two mandatory
escapes, all other characters verbatim. -/
def escChar (c : Char) : List Char :=
  if c = '"' ∨ c = '\\' then ['\\', c] else [c]

/-- Serialization of the body of a JSON string (without the quotes). -/
def serStrChars (s : List Char) : List Char :=
  s.flatMap escChar

mutual
/-- Serialization of a value, as a character list (compact separators). -/
def serV : Json → List Char
  | .null => "null".data
  | .bool true => "true".data
  | .bool false => "false".data
  | .num i => intChars i
  | .str s => '"' :: serStrChars s.data ++ ['"']
  | .arr .nil => ['[', ']']
  | .arr (.cons x xs) => '[' :: (serV x ++ serL xs) ++ [']']
  | .obj .nil => ['\x7b', '\x7d']
  | .obj (.cons k v kvs) =>
      '\x7b' :: (('"' :: serStrChars k.data ++ ['"', ':'] ++ serV v) ++ serO kvs)
        ++ ['\x7d']
/-- Serialization of the remaining elements of an array (each preceded by a
comma). -/
def serL : JsonList → List Char
  | .nil => []
  | .cons x xs => ',' :: serV x ++ serL xs
/-- Serialization of the remaining members of an object (each preceded by a
comma). -/
def serO : JsonObj → List Char
  | .nil => []
  | .cons k v kvs =>
      ',' :: (('"' :: serStrChars k.data ++ ['"', ':'] ++ serV v) ++ serO kvs)
end

/-- Model of `json.dumps`. -/
def dumps (x : Json) : String :=
  String.mk (serV x)

mutual
/-- Structural size of a JSON value, used as a fuel lower bound. -/
def sizeV : Json → Nat
  | .arr xs => 1 + sizeL xs
  | .obj kvs => 1 + sizeO kvs
  | _ => 1
/-- Structural size of an array tail. -/
def sizeL : JsonList → Nat
  | .nil => 0
  | .cons x xs => 1 + sizeV x + sizeL xs
/-- Structural size of an object tail. -/
def sizeO : JsonObj → Nat
  | .nil => 0
  | .cons _ v kvs => 1 + sizeV v + sizeO kvs
end

/-- JSON insignificant whitespace. -/
def isWs (c : Char) : Bool :=
  c = ' ' || c = '\n' || c = '\t' || c = '\r'

/-- Drop leading whitespace. -/
def skipWs (cs : List Char) : List Char :=
  cs.dropWhile isWs

/-- Numeric value of a decimal digit character. -/
def digitVal (c : Char) : Nat :=
  c.toNat - 48

/-- Parse a maximal non-empty run of decimal digits. -/
def parseNat (cs : List Char) : Option (Nat × List Char) :=
  let ds := cs.takeWhile Char.isDigit
  if ds = [] then none
  else some (ds.foldl (fun a c => 10 * a + digitVal c) 0, cs.dropWhile Char.isDigit)

/-- Decode the character after a backslash inside a JSON string. -/
def unescapeChar (c : Char) : Option Char :=
  if c = '"' then some '"'
  else if c = '\\' then some '\\'
  else if c = '/' then some '/'
  else if c = 'n' then some '\n'
  else if c = 't' then some '\t'
  else if c = 'r' then some '\r'
  else if c = 'b' then some (Char.ofNat 8)
  else if c = 'f' then some (Char.ofNat 12)
  else none

/-- Parse the body of a JSON string up to and including the closing quote. -/
def parseStrBody : List Char → Option (List Char × List Char)
  | [] => none
  | c :: rest =>
    if c = '"' then some ([], rest)
    else if c = '\\' then
      match rest with
      | [] => none
      | e :: rest2 =>
        match unescapeChar e with
        | some u =>
          match parseStrBody rest2 with
          | some (s, r) => some (u :: s, r)
          | none => none
        | none => none
    else
      match parseStrBody rest with
      | some (s, r) => some (c :: s, r)
      | none => none

/-- Consume an expected literal character sequence. -/
def dropLit : List Char → List Char → Option (List Char)
  | [], cs => some cs
  | _ :: _, [] => none
  | l :: ls, c :: cs => if c = l then dropLit ls cs else none

/-- Whether the list starts with the given character. -/
def headIs (cs : List Char) (c : Char) : Bool :=
  match cs with
  | [] => false
  | x :: _ => x = c

mutual
/-- Recursive-descent JSON value parser (fueled). -/
def parseVal : Nat → List Char → Option (Json × List Char)
  | 0, _ => none
  | fuel + 1, cs =>
    match skipWs cs with
    | [] => none
    | c :: r =>
      if c.isDigit then
        match parseNat (c :: r) with
        | some (n, r2) => some (.num ((n : Int)), r2)
        | none => none
      else if c = '-' then
        match parseNat r with
        | some (n, r2) => some (.num (-(n : Int)), r2)
        | none => none
      else if c = 'n' then
        match dropLit ['u', 'l', 'l'] r with
        | some r2 => some (.null, r2)
        | none => none
      else if c = 't' then
        match dropLit ['r', 'u', 'e'] r with
        | some r2 => some (.bool true, r2)
        | none => none
      else if c = 'f' then
        match dropLit ['a', 'l', 's', 'e'] r with
        | some r2 => some (.bool false, r2)
        | none => none
      else if c = '"' then
        match parseStrBody r with
        | some (s, r2) => some (.str (String.mk s), r2)
        | none => none
      else if c = '[' then
        if headIs (skipWs r) ']' then some (.arr .nil, (skipWs r).tail)
        else
          match parseArrElems fuel (skipWs r) with
          | some (xs, r2) => some (.arr xs, r2)
          | none => none
      else if c = '\x7b' then
        if headIs (skipWs r) '\x7d' then some (.obj .nil, (skipWs r).tail)
        else
          match parseObjElems fuel (skipWs r) with
          | some (kvs, r2) => some (.obj kvs, r2)
          | none => none
      else none
/-- Parse the elements of a non-empty array, from the first element up to and
including the closing bracket. -/
def parseArrElems : Nat → List Char → Option (JsonList × List Char)
  | 0, _ => none
  | fuel + 1, cs =>
    match parseVal fuel cs with
    | some (j, cs2) =>
      match skipWs cs2 with
      | ',' :: cs3 =>
        match parseArrElems fuel cs3 with
        | some (xs, cs4) => some (.cons j xs, cs4)
        | none => none
      | ']' :: cs3 => some (.cons j .nil, cs3)
      | _ => none
    | none => none
/-- Parse the members of a non-empty object, from the first key up to and
including the closing brace. -/
def parseObjElems : Nat → List Char → Option (JsonObj × List Char)
  | 0, _ => none
  | fuel + 1, cs =>
    match skipWs cs with
    | c :: r =>
      if c = '"' then
        match parseStrBody r with
        | some (k, r2) =>
          match skipWs r2 with
          | ':' :: r3 =>
            match parseVal fuel r3 with
            | some (v, r4) =>
              match skipWs r4 with
              | ',' :: r5 =>
                match parseObjElems fuel r5 with
                | some (kvs, r6) => some (.cons (String.mk k) v kvs, r6)
                | none => none
              | '\x7d' :: r5 => some (.cons (String.mk k) v .nil, r5)
              | _ => none
            | none => none
          | _ => none
        | none => none
      else none
    | [] => none
end

/-- Model of `json.loads`: parse a complete JSON document, rejecting trailing
non-whitespace; `none` is a raised `JSONDecodeError`. -/
def loads (s : String) : Option Json :=
  match parseVal (2 * s.data.length + 4) s.data with
  | some (j, rest) => if skipWs rest = [] then some j else none
  | none => none

/-- The structured-output recovery step shared by `generate_curriculum`,
`generate_project_scaffold` and `analyze_code_submission`:
`try: return json.loads(response) except JSONDecodeError: return
{"error": "Failed to parse <kind>", "raw_response": response}`. -/
def parse_response (kind : String) (response : String) : Json :=
  match loads response with
  | some j => j
  | none =>
      .obj (.cons "error" (.str ("Failed to parse " ++ kind))
        (.cons "raw_response" (.str response) .nil))

/-- The remainder after a serialized number must not begin with a digit. -/
def headOkNum : List Char → Bool
  | [] => true
  | c :: _ => !c.isDigit

/-- The characters that can begin a serialized JSON value. -/
def startOk (c : Char) : Bool :=
  c.isDigit || c = 'n' || c = 't' || c = 'f' || c = '"' || c = '[' ||
    c = '\x7b' || c = '-'

/-- The parse step of `generate_curriculum` (kind "curriculum"). -/
def parse_curriculum_response : String → Json :=
  parse_response "curriculum"

/-- The parse step of `generate_project_scaffold` (kind "project scaffold"). -/
def parse_scaffold_response : String → Json :=
  parse_response "project scaffold"

/-- The parse step of `analyze_code_submission` (kind "analysis"). -/
def parse_analysis_response : String → Json :=
  parse_response "analysis"

/-! ## Persistence layer (`Database`, backend/database.py) -/

/-- A row of the `users` table. -/
structure UserRow where
  id : Nat
  username : String
  created_at : Nat
  deriving DecidableEq

/-- A row of the `learning_paths` table. -/
structure PathRow where
  id : Nat
  user_id : Nat
  title : String
  source_type : String
  source_content : String
  curriculum_json : String
  created_at : Nat
  deriving DecidableEq

/-- A row of the `progress` table. -/
structure ProgressRow where
  id : Nat
  user_id : Nat
  path_id : Nat
  module_id : String
  status : String
  projects_completed : Option String
  notes : Option String
  updated_at : Nat
  deriving DecidableEq

/-- A row of the `chat_history` table. -/
structure ChatRow where
  id : Nat
  user_id : Nat
  path_id : Nat
  role : String
  content : String
  timestamp : Nat
  deriving DecidableEq

/-- The persistent state behind `learning_copilot.db`: the four tables, the
per-table `AUTOINCREMENT` counters, and a logical clock standing in for
`CURRENT_TIMESTAMP` (strictly increasing across write operations). -/
structure DBState where
  users : List UserRow
  learning_paths : List PathRow
  progress : List ProgressRow
  chat_history : List ChatRow
  nextUserId : Nat
  nextPathId : Nat
  nextProgressId : Nat
  nextChatId : Nat
  clock : Nat
  deriving DecidableEq

/-- Model of `Database.init_database`: `CREATE TABLE IF NOT EXISTS` for the four
tables.  Schema DDL has no effect on the row-level state of this model, and
the statements are idempotent, so the operation is the identity. -/
def init_database (db : DBState) : DBState := db

/-- Model of `Database.create_user`: try `INSERT INTO users (username) VALUES (?)`;
on `IntegrityError` (exactly when the `UNIQUE` username already exists)
`SELECT id FROM users WHERE username = ?` and return that id instead. -/
def create_user (db : DBState) (username : String) : Nat × DBState :=
  match db.users.find? (fun u => u.username == username) with
  | some u => (u.id, db)
  | none =>
    let row : UserRow :=
      { id := db.nextUserId, username := username, created_at := db.clock }
    (db.nextUserId,
     { db with
         users := db.users ++ [row],
         nextUserId := db.nextUserId + 1,
         clock := db.clock + 1 })

/-- Model of `Database.create_learning_path`: plain insert, returns `lastrowid`. -/
def create_learning_path (db : DBState) (user_id : Nat)
    (title source_type source_content : String) (curriculum : Json) :
    Nat × DBState :=
  let row : PathRow :=
    { id := db.nextPathId, user_id := user_id, title := title,
      source_type := source_type, source_content := source_content,
      curriculum_json := dumps curriculum, created_at := db.clock }
  (db.nextPathId,
   { db with
       learning_paths := db.learning_paths ++ [row],
       nextPathId := db.nextPathId + 1,
       clock := db.clock + 1 })

/-- Descending insertion by a numeric key (stable for equal keys), modelling
the ordering delivered by `ORDER BY <key> DESC`. -/
def insertByKeyDesc {α : Type} (key : α → Nat) (a : α) : List α → List α
  | [] => [a]
  | b :: l => if key b < key a then a :: b :: l else b :: insertByKeyDesc key a l

/-- Descending sort by a numeric key. -/
def sortByKeyDesc {α : Type} (key : α → Nat) : List α → List α
  | [] => []
  | a :: l => insertByKeyDesc key a (sortByKeyDesc key l)

/-- Model of `Database.get_learning_paths`:
`SELECT * WHERE user_id = ? ORDER BY created_at DESC`. -/
def get_learning_paths (db : DBState) (user_id : Nat) : List PathRow :=
  sortByKeyDesc (fun r => r.created_at)
    (db.learning_paths.filter (fun r => r.user_id == user_id))

/-- Model of `Database.get_learning_path`: fetch one row by id and decode its
curriculum column with `json.loads` (an undecodable column, `none` here,
raises in the source; the raise is not caught inside the method). -/
def get_learning_path (db : DBState) (path_id : Nat) :
    Option (PathRow × Option Json) :=
  match db.learning_paths.find? (fun r => r.id == path_id) with
  | some row => some (row, loads row.curriculum_json)
  | none => none

/-- The `WHERE user_id = ? AND path_id = ? AND module_id = ?` predicate of
`update_progress`. -/
def progressMatches (user_id path_id : Nat) (module_id : String)
    (r : ProgressRow) : Bool :=
  r.user_id == user_id && r.path_id == path_id && r.module_id == module_id

/-- A list of completed-project names as a JSON value. -/
def strsToJsonList : List String → JsonList
  | [] => .nil
  | s :: ss => .cons (.str s) (strsToJsonList ss)

/-- Model of `json.dumps(projects_completed) if projects_completed else None`:
both `None` and the falsy empty list store SQL `NULL`. -/
def projectsJson (projects_completed : Option (List String)) : Option String :=
  match projects_completed with
  | some l => if l = [] then none else some (dumps (.arr (strsToJsonList l)))
  | none => none

/-- The column assignment performed by the `UPDATE progress SET ...` branch. -/
def applyProgressUpd (status : String) (pj notes : Option String) (clk : Nat)
    (r : ProgressRow) : ProgressRow :=
  { r with status := status, projects_completed := pj, notes := notes,
           updated_at := clk }

/-- Model of `Database.update_progress`: `SELECT id ... fetchone()`, then either
`UPDATE ... WHERE id = ?` of the found row or a fresh `INSERT`. -/
def update_progress (db : DBState) (user_id path_id : Nat)
    (module_id status : String)
    (projects_completed : Option (List String)) (notes : Option String) :
    DBState :=
  let pj := projectsJson projects_completed
  match db.progress.find? (progressMatches user_id path_id module_id) with
  | some row =>
    { db with
        progress := db.progress.map (fun r =>
          if r.id = row.id then applyProgressUpd status pj notes db.clock r
          else r),
        clock := db.clock + 1 }
  | none =>
    let row : ProgressRow :=
      { id := db.nextProgressId, user_id := user_id, path_id := path_id,
        module_id := module_id, status := status, projects_completed := pj,
        notes := notes, updated_at := db.clock }
    { db with
        progress := db.progress ++ [row],
        nextProgressId := db.nextProgressId + 1,
        clock := db.clock + 1 }

/-- Model of `Database.get_progress`: rows for the (user, path) pair ordered by
`updated_at DESC`, each paired with its decoded `projects_completed` column
(`None`/empty stays undecoded, as under `if result['projects_completed']`). -/
def get_progress (db : DBState) (user_id path_id : Nat) :
    List (ProgressRow × Option Json) :=
  (sortByKeyDesc (fun r => r.updated_at)
      (db.progress.filter
        (fun r => r.user_id == user_id && r.path_id == path_id))).map
    (fun r =>
      (r, match r.projects_completed with
          | some s => if s = "" then none else loads s
          | none => none))

/-- The `WHERE user_id = ? AND path_id = ?` predicate of the chat queries. -/
def chatMatches (user_id path_id : Nat) (r : ChatRow) : Bool :=
  r.user_id == user_id && r.path_id == path_id

/-- Model of `Database.add_chat_message`: plain insert. -/
def add_chat_message (db : DBState) (user_id path_id : Nat)
    (role content : String) : DBState :=
  let row : ChatRow :=
    { id := db.nextChatId, user_id := user_id, path_id := path_id,
      role := role, content := content, timestamp := db.clock }
  { db with
      chat_history := db.chat_history ++ [row],
      nextChatId := db.nextChatId + 1,
      clock := db.clock + 1 }

/-- Model of `Database.get_chat_history`:
`SELECT * WHERE user_id = ? AND path_id = ? ORDER BY timestamp DESC LIMIT ?`,
then `reversed(rows)`. -/
def get_chat_history (db : DBState) (user_id path_id : Nat)
    (limit : Nat) : List ChatRow :=
  ((sortByKeyDesc (fun r => r.timestamp)
      (db.chat_history.filter (chatMatches user_id path_id))).take limit).reverse

/-! ## Connection scoping (`Database.get_connection`) -/

/-- Model of `Database.get_connection`, a `@contextmanager` whose body is
`conn = sqlite3.connect(...); try: yield conn finally: conn.close()`.
`withConn body db conns` runs one method body inside `with
self.get_connection() as conn`: the count of open connections is incremented
by `sqlite3.connect` and decremented by the `finally` on both the normal and
the raising path; a raising body loses its uncommitted writes (the close
without commit rolls back). -/
def withConn {α : Type} (body : DBState → Except String (α × DBState))
    (db : DBState) (openConns : Nat) : Except String α × DBState × Nat :=
  match body db with
  | .ok (a, db2) => (.ok a, db2, (openConns + 1) - 1)
  | .error e => (.error e, db, (openConns + 1) - 1)

/-- Lift a pure method body to one that may raise a sqlite error mid-body
(`fault` injects the raised message, exercising the exceptional exit path). -/
def faultable {α : Type} (fault : Option String) (r : α × DBState) :
    Except String (α × DBState) :=
  match fault with
  | some e => .error e
  | none => .ok r

/-- The method `init_database` as executed under `with self.get_connection()`. -/
def init_database_op (fault : Option String) (db : DBState) (conns : Nat) :
    Except String Unit × DBState × Nat :=
  withConn (fun db => faultable fault ((), init_database db)) db conns

/-- The method `create_user` as executed under `with self.get_connection()`. -/
def create_user_op (username : String) (fault : Option String)
    (db : DBState) (conns : Nat) : Except String Nat × DBState × Nat :=
  withConn (fun db => faultable fault (create_user db username)) db conns

/-- The method `create_learning_path` as executed under `with self.get_connection()`. -/
def create_learning_path_op (user_id : Nat)
    (title source_type source_content : String) (curriculum : Json)
    (fault : Option String) (db : DBState) (conns : Nat) :
    Except String Nat × DBState × Nat :=
  withConn
    (fun db => faultable fault
      (create_learning_path db user_id title source_type source_content
        curriculum)) db conns

/-- The method `get_learning_paths` as executed under `with self.get_connection()`. -/
def get_learning_paths_op (user_id : Nat) (fault : Option String)
    (db : DBState) (conns : Nat) :
    Except String (List PathRow) × DBState × Nat :=
  withConn (fun db => faultable fault (get_learning_paths db user_id, db))
    db conns

/-- The method `get_learning_path` as executed under `with self.get_connection()`. -/
def get_learning_path_op (path_id : Nat) (fault : Option String)
    (db : DBState) (conns : Nat) :
    Except String (Option (PathRow × Option Json)) × DBState × Nat :=
  withConn (fun db => faultable fault (get_learning_path db path_id, db))
    db conns

/-- The method `update_progress` as executed under `with self.get_connection()`. -/
def update_progress_op (user_id path_id : Nat) (module_id status : String)
    (projects_completed : Option (List String)) (notes : Option String)
    (fault : Option String) (db : DBState) (conns : Nat) :
    Except String Unit × DBState × Nat :=
  withConn
    (fun db => faultable fault
      ((), update_progress db user_id path_id module_id status
             projects_completed notes)) db conns

/-- The method `get_progress` as executed under `with self.get_connection()`. -/
def get_progress_op (user_id path_id : Nat) (fault : Option String)
    (db : DBState) (conns : Nat) :
    Except String (List (ProgressRow × Option Json)) × DBState × Nat :=
  withConn (fun db => faultable fault (get_progress db user_id path_id, db))
    db conns

/-- The method `add_chat_message` as executed under `with self.get_connection()`. -/
def add_chat_message_op (user_id path_id : Nat) (role content : String)
    (fault : Option String) (db : DBState) (conns : Nat) :
    Except String Unit × DBState × Nat :=
  withConn
    (fun db => faultable fault
      ((), add_chat_message db user_id path_id role content)) db conns

/-- The method `get_chat_history` as executed under `with self.get_connection()`. -/
def get_chat_history_op (user_id path_id limit : Nat) (fault : Option String)
    (db : DBState) (conns : Nat) :
    Except String (List ChatRow) × DBState × Nat :=
  withConn
    (fun db => faultable fault (get_chat_history db user_id path_id limit, db))
    db conns

/-! ## Adapter lemmas and claims C1, C2, C6 -/

/-- A model identifier cannot match both dispatch prefixes. -/
theorem not_gpt5_of_o1 (m : String) (h : strStartsWith m "o1" = true) :
    strStartsWith m "gpt-5" = false := by
  unfold strStartsWith at *
  have ho : "o1".data = ['o', '1'] := rfl
  have hg : "gpt-5".data = ['g', 'p', 't', '-', '5'] := rfl
  rw [ho] at h
  rw [hg]
  cases hm : m.data with
  | nil => rw [hm] at h; simp [startsWithL] at h
  | cons c cs =>
    rw [hm] at h
    simp only [startsWithL, Bool.and_eq_true, decide_eq_true_eq] at h
    simp only [startsWithL, Bool.and_eq_false_iff, decide_eq_false_iff_not]
    left
    rw [← h.1]
    decide

/-- C1: `generate_completion` populates exactly the dispatch table's field
set for each model-prefix family, never carries `max_tokens` and
`max_completion_tokens` simultaneously, and on the example scenario
(`gpt-5-mini`, `max_tokens=500`) submits `max_completion_tokens = 500` with
no temperature and with the verbosity/reasoning-effort fields. -/
theorem buildParams_dispatch_table
    (eng : AIEngine) (messages : List Message)
    (temperature : Option Rat) (max_tokens : Option Nat)
    (verbosity reasoning_effort : String) (response_format : Option String) :
    (strStartsWith eng.model "gpt-5" = true →
      (buildParams eng messages temperature max_tokens verbosity
          reasoning_effort response_format).max_completion_tokens
          = some (orElseNat max_tokens eng.max_tokens) ∧
      (buildParams eng messages temperature max_tokens verbosity
          reasoning_effort response_format).verbosity = some verbosity ∧
      (buildParams eng messages temperature max_tokens verbosity
          reasoning_effort response_format).reasoning_effort
          = some reasoning_effort ∧
      (buildParams eng messages temperature max_tokens verbosity
          reasoning_effort response_format).temperature = none ∧
      (buildParams eng messages temperature max_tokens verbosity
          reasoning_effort response_format).max_tokens = none) ∧
    (strStartsWith eng.model "o1" = true →
      (buildParams eng messages temperature max_tokens verbosity
          reasoning_effort response_format).max_completion_tokens
          = some (orElseNat max_tokens eng.max_tokens) ∧
      (buildParams eng messages temperature max_tokens verbosity
          reasoning_effort response_format).temperature = none ∧
      (buildParams eng messages temperature max_tokens verbosity
          reasoning_effort response_format).verbosity = none ∧
      (buildParams eng messages temperature max_tokens verbosity
          reasoning_effort response_format).reasoning_effort = none ∧
      (buildParams eng messages temperature max_tokens verbosity
          reasoning_effort response_format).max_tokens = none) ∧
    (strStartsWith eng.model "gpt-5" = false →
      strStartsWith eng.model "o1" = false →
      (buildParams eng messages temperature max_tokens verbosity
          reasoning_effort response_format).temperature
          = some (orElseRat temperature eng.temperature) ∧
      (buildParams eng messages temperature max_tokens verbosity
          reasoning_effort response_format).max_tokens
          = some (orElseNat max_tokens eng.max_tokens) ∧
      (buildParams eng messages temperature max_tokens verbosity
          reasoning_effort response_format).max_completion_tokens = none ∧
      (buildParams eng messages temperature max_tokens verbosity
          reasoning_effort response_format).verbosity = none ∧
      (buildParams eng messages temperature max_tokens verbosity
          reasoning_effort response_format).reasoning_effort = none) ∧
    ¬((buildParams eng messages temperature max_tokens verbosity
          reasoning_effort response_format).max_tokens.isSome = true ∧
      (buildParams eng messages temperature max_tokens verbosity
          reasoning_effort response_format).max_completion_tokens.isSome
          = true) ∧
    ((buildParams { model := "gpt-5-mini", temperature := 1, max_tokens := 4000 }
        messages none (some 500) verbosity reasoning_effort
        response_format).max_completion_tokens = some 500 ∧
      (buildParams { model := "gpt-5-mini", temperature := 1, max_tokens := 4000 }
        messages none (some 500) verbosity reasoning_effort
        response_format).temperature = none ∧
      (buildParams { model := "gpt-5-mini", temperature := 1, max_tokens := 4000 }
        messages none (some 500) verbosity reasoning_effort
        response_format).verbosity = some verbosity ∧
      (buildParams { model := "gpt-5-mini", temperature := 1, max_tokens := 4000 }
        messages none (some 500) verbosity reasoning_effort
        response_format).reasoning_effort = some reasoning_effort) := by
  unfold buildParams
  have hgo : ∀ m : String, strStartsWith m "o1" = true →
      strStartsWith m "gpt-5" = false := not_gpt5_of_o1
  refine ⟨?_, ?_, ?_, ?_, ?_⟩
  · intro hg
    rw [hg]
    cases response_format <;> simp
  · intro ho
    rw [hgo eng.model ho, ho]
    cases response_format <;> simp
  · intro hg ho
    rw [hg, ho]
    cases response_format <;> simp
  · rcases hg : strStartsWith eng.model "gpt-5" with _ | _
    · rcases ho : strStartsWith eng.model "o1" with _ | _
      · cases response_format <;> simp
      · cases response_format <;> simp
    · cases response_format <;> simp
  · cases response_format <;> simp [strStartsWith, startsWithL, orElseNat]

/-- Witness for C1: the dispatch table evaluated on an `o1` model and on a
legacy (`gpt-4`) model. -/
theorem buildParams_dispatch_table_witness :
    (buildParams { model := "o1-preview", temperature := 1, max_tokens := 4000 }
      [] none none "medium" "medium" none).max_completion_tokens = some 4000 ∧
    (buildParams { model := "o1-preview", temperature := 1, max_tokens := 4000 }
      [] none none "medium" "medium" none).temperature = none ∧
    (buildParams { model := "gpt-4", temperature := 1, max_tokens := 4000 }
      [] (some 2) (some 500) "medium" "medium" none).temperature = some 2 ∧
    (buildParams { model := "gpt-4", temperature := 1, max_tokens := 4000 }
      [] (some 2) (some 500) "medium" "medium" none).max_tokens = some 500 := by
  have h1 := buildParams_dispatch_table
    { model := "o1-preview", temperature := 1, max_tokens := 4000 }
    [] none none "medium" "medium" none
  have h2 := buildParams_dispatch_table
    { model := "gpt-4", temperature := 1, max_tokens := 4000 }
    [] (some 2) (some 500) "medium" "medium" none
  refine ⟨(h1.2.1 (by decide)).1, (h1.2.1 (by decide)).2.1, ?_, ?_⟩
  · rw [(h2.2.2.1 (by decide) (by decide)).1]
    decide
  · rw [(h2.2.2.1 (by decide) (by decide)).2.1]
    decide

/-- Counterexample to C6 as stated: with a non-reasoning model and an
explicitly supplied temperature of `0.0` (and max-tokens of `0`), the
built request does not carry the supplied values — Python's `x or default`
treats the falsy `0`/`0.0` as absent and substitutes the configured
defaults. -/
theorem buildParams_zero_option_falls_back :
    (buildParams { model := "gpt-4", temperature := 1, max_tokens := 4000 }
      [] (some 0) (some 0) "medium" "medium" none).temperature = some 1 ∧
    (buildParams { model := "gpt-4", temperature := 1, max_tokens := 4000 }
      [] (some 0) (some 0) "medium" "medium" none).temperature ≠ some 0 ∧
    (buildParams { model := "gpt-4", temperature := 1, max_tokens := 4000 }
      [] (some 0) (some 0) "medium" "medium" none).max_tokens = some 4000 ∧
    (buildParams { model := "gpt-4", temperature := 1, max_tokens := 4000 }
      [] (some 0) (some 0) "medium" "medium" none).max_tokens ≠ some 0 := by
  refine ⟨by decide, by decide, by decide, by decide⟩

/-- C6 amended: outside the two reasoning prefixes, an explicitly supplied
*non-zero* temperature or max-tokens value is submitted unchanged; the
configured defaults are used when an option is absent — or when it is
supplied as the falsy value `0`/`0.0`. -/
theorem buildParams_explicit_options
    (eng : AIEngine) (messages : List Message) (t : Rat) (n : Nat)
    (verbosity reasoning_effort : String) (response_format : Option String)
    (hg : strStartsWith eng.model "gpt-5" = false)
    (ho : strStartsWith eng.model "o1" = false)
    (ht : t ≠ 0) (hn : n ≠ 0) :
    (buildParams eng messages (some t) (some n) verbosity reasoning_effort
        response_format).temperature = some t ∧
    (buildParams eng messages (some t) (some n) verbosity reasoning_effort
        response_format).max_tokens = some n ∧
    (buildParams eng messages none none verbosity reasoning_effort
        response_format).temperature = some eng.temperature ∧
    (buildParams eng messages none none verbosity reasoning_effort
        response_format).max_tokens = some eng.max_tokens ∧
    (buildParams eng messages (some 0) (some 0) verbosity reasoning_effort
        response_format).temperature = some eng.temperature ∧
    (buildParams eng messages (some 0) (some 0) verbosity reasoning_effort
        response_format).max_tokens = some eng.max_tokens := by
  have h1 := buildParams_dispatch_table eng messages (some t) (some n)
    verbosity reasoning_effort response_format
  have h2 := buildParams_dispatch_table eng messages none none
    verbosity reasoning_effort response_format
  have h3 := buildParams_dispatch_table eng messages (some 0) (some 0)
    verbosity reasoning_effort response_format
  have e1 := h1.2.2.1 hg ho
  have e2 := h2.2.2.1 hg ho
  have e3 := h3.2.2.1 hg ho
  refine ⟨?_, ?_, ?_, ?_, ?_, ?_⟩
  · rw [e1.1]; simp [orElseRat, ht]
  · rw [e1.2.1]; simp [orElseNat, hn]
  · rw [e2.1]; simp [orElseRat]
  · rw [e2.2.1]; simp [orElseNat]
  · rw [e3.1]; simp [orElseRat]
  · rw [e3.2.1]; simp [orElseNat]

/-- Witness for the amended C6 at a concrete non-reasoning engine. -/
theorem buildParams_explicit_options_witness :
    (buildParams { model := "gpt-4", temperature := 1, max_tokens := 4000 }
      [] (some 2) (some 500) "medium" "medium" none).temperature = some 2 ∧
    (buildParams { model := "gpt-4", temperature := 1, max_tokens := 4000 }
      [] (some 2) (some 500) "medium" "medium" none).max_tokens = some 500 := by
  have h := buildParams_explicit_options
    { model := "gpt-4", temperature := 1, max_tokens := 4000 }
    [] 2 500 "medium" "medium" none (by decide) (by decide) (by decide)
    (by decide)
  exact ⟨h.1, h.2.1⟩

/-- Counterexample to C2 as stated: with a `gpt-5` model the built request
has no legacy `max_tokens` key, so even when the submission error mentions
both field names the code skips the rename (`if "max_tokens" in params`
fails) and re-raises the original error after a single attempt — it does
not retry. -/
theorem generate_completion_no_retry_without_legacy_field :
    bothFieldNames
      "Unsupported parameter: use max_completion_tokens instead of max_tokens"
      = true ∧
    (generate_completion
      (fun _ => .error
        "Unsupported parameter: use max_completion_tokens instead of max_tokens")
      { model := "gpt-5-mini", temperature := 1, max_tokens := 4000 }
      [] none (some 500) "medium" "medium" none).2.length = 1 ∧
    (generate_completion
      (fun _ => .error
        "Unsupported parameter: use max_completion_tokens instead of max_tokens")
      { model := "gpt-5-mini", temperature := 1, max_tokens := 4000 }
      [] none (some 500) "medium" "medium" none).1
      = .error
        "Unsupported parameter: use max_completion_tokens instead of max_tokens" := by
  refine ⟨by decide, rfl, rfl⟩

/-- If the first submission succeeds, `generate_completion` returns it after
a single attempt. -/
theorem gc_ok (submit : Params → Except String String) (eng : AIEngine)
    (messages : List Message)
    (temperature : Option Rat) (max_tokens : Option Nat)
    (verbosity reasoning_effort : String) (response_format : Option String)
    (t : String)
    (hs : submit (buildParams eng messages temperature max_tokens verbosity
      reasoning_effort response_format) = .ok t) :
    generate_completion submit eng messages temperature max_tokens verbosity
        reasoning_effort response_format
      = (.ok t, [buildParams eng messages temperature max_tokens verbosity
          reasoning_effort response_format]) := by
  simp only [generate_completion]
  rw [hs]

/-- If the first submission fails and either the message does not name both
token fields or the request has no `max_tokens` key, the error propagates
after a single attempt. -/
theorem gc_err_noretry (submit : Params → Except String String)
    (eng : AIEngine) (messages : List Message)
    (temperature : Option Rat) (max_tokens : Option Nat)
    (verbosity reasoning_effort : String) (response_format : Option String)
    (e : String)
    (hs : submit (buildParams eng messages temperature max_tokens verbosity
      reasoning_effort response_format) = .error e)
    (hcase : bothFieldNames e = false ∨
      (buildParams eng messages temperature max_tokens verbosity
        reasoning_effort response_format).max_tokens = none) :
    generate_completion submit eng messages temperature max_tokens verbosity
        reasoning_effort response_format
      = (.error e, [buildParams eng messages temperature max_tokens verbosity
          reasoning_effort response_format]) := by
  simp only [generate_completion]
  rw [hs]
  rcases hcase with hb | hm
  · simp [hb]
  · cases hb2 : bothFieldNames e
    · simp [hb2]
    · simp [hb2, hm]

/-- If the first submission fails with a message naming both token fields
and the request carries `max_tokens`, the renamed request is submitted once
and its outcome returned. -/
theorem gc_err_retry (submit : Params → Except String String)
    (eng : AIEngine) (messages : List Message)
    (temperature : Option Rat) (max_tokens : Option Nat)
    (verbosity reasoning_effort : String) (response_format : Option String)
    (e : String) (v : Nat)
    (hs : submit (buildParams eng messages temperature max_tokens verbosity
      reasoning_effort response_format) = .error e)
    (hb : bothFieldNames e = true)
    (hm : (buildParams eng messages temperature max_tokens verbosity
      reasoning_effort response_format).max_tokens = some v) :
    generate_completion submit eng messages temperature max_tokens verbosity
        reasoning_effort response_format
      = (submit (renameMaxTokens (buildParams eng messages temperature
            max_tokens verbosity reasoning_effort response_format)),
         [buildParams eng messages temperature max_tokens verbosity
            reasoning_effort response_format,
          renameMaxTokens (buildParams eng messages temperature max_tokens
            verbosity reasoning_effort response_format)]) := by
  simp only [generate_completion]
  rw [hs]
  cases hr : submit (renameMaxTokens (buildParams eng messages temperature
    max_tokens verbosity reasoning_effort response_format)) <;>
    simp [hb, hm, hr]

/-- C2 amended: at most two submissions ever happen, the first with the
built request; an error whose message mentions both field names triggers the
single renamed retry only when the built request actually contains the
legacy `max_tokens` field, and the retry's outcome is returned; an error
without both names — or on a request with no `max_tokens` field — is
propagated unchanged with no retry. -/
theorem generate_completion_retry_once
    (submit : Params → Except String String) (eng : AIEngine)
    (messages : List Message)
    (temperature : Option Rat) (max_tokens : Option Nat)
    (verbosity reasoning_effort : String) (response_format : Option String) :
    (generate_completion submit eng messages temperature max_tokens
        verbosity reasoning_effort response_format).2.length ≤ 2 ∧
    (generate_completion submit eng messages temperature max_tokens
        verbosity reasoning_effort response_format).2.head?
      = some (buildParams eng messages temperature max_tokens verbosity
          reasoning_effort response_format) ∧
    (∀ t, submit (buildParams eng messages temperature max_tokens verbosity
          reasoning_effort response_format) = .ok t →
      generate_completion submit eng messages temperature max_tokens
          verbosity reasoning_effort response_format
        = (.ok t, [buildParams eng messages temperature max_tokens verbosity
            reasoning_effort response_format])) ∧
    (∀ e, submit (buildParams eng messages temperature max_tokens verbosity
          reasoning_effort response_format) = .error e →
      bothFieldNames e = true →
      (buildParams eng messages temperature max_tokens verbosity
          reasoning_effort response_format).max_tokens.isSome = true →
      (generate_completion submit eng messages temperature max_tokens
          verbosity reasoning_effort response_format).2
        = [buildParams eng messages temperature max_tokens verbosity
             reasoning_effort response_format,
           renameMaxTokens (buildParams eng messages temperature max_tokens
             verbosity reasoning_effort response_format)] ∧
      (generate_completion submit eng messages temperature max_tokens
          verbosity reasoning_effort response_format).1
        = submit (renameMaxTokens (buildParams eng messages temperature
            max_tokens verbosity reasoning_effort response_format))) ∧
    (∀ e, submit (buildParams eng messages temperature max_tokens verbosity
          reasoning_effort response_format) = .error e →
      (bothFieldNames e = false ∨
        (buildParams eng messages temperature max_tokens verbosity
          reasoning_effort response_format).max_tokens = none) →
      generate_completion submit eng messages temperature max_tokens
          verbosity reasoning_effort response_format
        = (.error e, [buildParams eng messages temperature max_tokens
            verbosity reasoning_effort response_format])) := by
  cases hs : submit (buildParams eng messages temperature max_tokens
    verbosity reasoning_effort response_format) with
  | ok t =>
    have h := gc_ok submit eng messages temperature max_tokens verbosity
      reasoning_effort response_format t hs
    rw [h]
    refine ⟨by simp, by simp, ?_, ?_, ?_⟩
    · intro t' ht'
      cases ht'
      rfl
    · intro e he
      cases he
    · intro e he
      cases he
  | error e =>
    rcases hb : bothFieldNames e with _ | _
    · have h := gc_err_noretry submit eng messages temperature max_tokens
        verbosity reasoning_effort response_format e hs (Or.inl hb)
      rw [h]
      refine ⟨by simp, by simp, ?_, ?_, ?_⟩
      · intro t ht
        cases ht
      · intro e' he' hb' _
        cases he'
        rw [hb] at hb'
        exact absurd hb' (by decide)
      · intro e' he' _
        cases he'
        rfl
    · cases hm : (buildParams eng messages temperature max_tokens verbosity
        reasoning_effort response_format).max_tokens with
      | none =>
        have h := gc_err_noretry submit eng messages temperature max_tokens
          verbosity reasoning_effort response_format e hs (Or.inr hm)
        rw [h]
        refine ⟨by simp, by simp, ?_, ?_, ?_⟩
        · intro t ht
          cases ht
        · intro e' he' _ hsome
          exact absurd hsome (by decide)
        · intro e' he' _
          cases he'
          rfl
      | some v =>
        have h := gc_err_retry submit eng messages temperature max_tokens
          verbosity reasoning_effort response_format e v hs hb hm
        rw [h]
        refine ⟨?_, by simp, ?_, ?_, ?_⟩
        · simp
        · intro t ht
          cases ht
        · intro e' he' _ _
          exact ⟨rfl, rfl⟩
        · intro e' he' hcase
          cases he'
          rcases hcase with hc | hc
          · rw [hb] at hc
            exact absurd hc (by decide)
          · exact Option.noConfusion hc

/-- Witness for the amended C2: a legacy-model request whose first
submission fails mentioning both field names is retried once renamed and
the retry's success is returned. -/
theorem generate_completion_retry_once_witness :
    (generate_completion
      (fun q => if q.max_tokens.isSome then
          .error "max_tokens is unsupported, use max_completion_tokens"
        else .ok "hello")
      { model := "gpt-4", temperature := 1, max_tokens := 4000 }
      [] none (some 500) "medium" "medium" none).1 = .ok "hello" ∧
    (generate_completion
      (fun q => if q.max_tokens.isSome then
          .error "max_tokens is unsupported, use max_completion_tokens"
        else .ok "hello")
      { model := "gpt-4", temperature := 1, max_tokens := 4000 }
      [] none (some 500) "medium" "medium" none).2.length = 2 := by
  have h := generate_completion_retry_once
    (fun q => if q.max_tokens.isSome then
        .error "max_tokens is unsupported, use max_completion_tokens"
      else .ok "hello")
    { model := "gpt-4", temperature := 1, max_tokens := 4000 }
    [] none (some 500) "medium" "medium" none
  have h4 := h.2.2.2.1 "max_tokens is unsupported, use max_completion_tokens"
    rfl (by decide) (by decide)
  refine ⟨?_, ?_⟩
  · rw [h4.2]
    rfl
  · rw [h4.1]
    rfl

/-! ## Claims C8 and C9 -/

/-- The connection opened by one `with self.get_connection()` scope is closed
on both exit paths: the net open-connection count is unchanged. -/
theorem withConn_balanced {α : Type}
    (body : DBState → Except String (α × DBState)) (db : DBState)
    (conns : Nat) : (withConn body db conns).2.2 = conns := by
  unfold withConn
  cases h : body db with
  | ok r =>
    rcases r with ⟨a, db2⟩
    simp
  | error e => simp

/-- C8: every `Database` method acquires its connection through
`get_connection` and, on both the normal and the raising exit path, ends
with that connection closed — the open-connection count after any operation
equals the count before it. -/
theorem database_connection_scoped :
    (∀ fault db conns, (init_database_op fault db conns).2.2 = conns) ∧
    (∀ username fault db conns,
      (create_user_op username fault db conns).2.2 = conns) ∧
    (∀ u t st sc cur fault db conns,
      (create_learning_path_op u t st sc cur fault db conns).2.2 = conns) ∧
    (∀ u fault db conns,
      (get_learning_paths_op u fault db conns).2.2 = conns) ∧
    (∀ p fault db conns,
      (get_learning_path_op p fault db conns).2.2 = conns) ∧
    (∀ u p m s pc n fault db conns,
      (update_progress_op u p m s pc n fault db conns).2.2 = conns) ∧
    (∀ u p fault db conns,
      (get_progress_op u p fault db conns).2.2 = conns) ∧
    (∀ u p r c fault db conns,
      (add_chat_message_op u p r c fault db conns).2.2 = conns) ∧
    (∀ u p l fault db conns,
      (get_chat_history_op u p l fault db conns).2.2 = conns) :=
  ⟨fun _ _ _ => withConn_balanced _ _ _,
   fun _ _ _ _ => withConn_balanced _ _ _,
   fun _ _ _ _ _ _ _ _ => withConn_balanced _ _ _,
   fun _ _ _ _ => withConn_balanced _ _ _,
   fun _ _ _ _ => withConn_balanced _ _ _,
   fun _ _ _ _ _ _ _ _ _ => withConn_balanced _ _ _,
   fun _ _ _ _ _ => withConn_balanced _ _ _,
   fun _ _ _ _ _ _ _ => withConn_balanced _ _ _,
   fun _ _ _ _ _ _ => withConn_balanced _ _ _⟩

/-- C9: updating progress with an empty completed-projects list stores the
very same state as omitting the argument — `if projects_completed` is falsy
for `[]`, so `NULL` is stored and the two calls are indistinguishable. -/
theorem update_progress_empty_eq_none (db : DBState) (u pa : Nat)
    (mo s : String) (notes : Option String) :
    update_progress db u pa mo s (some []) notes
      = update_progress db u pa mo s none notes := rfl

/-! ## Claim C5 (create_user idempotence) -/

/-- C5: creating a user whose name already exists returns the pre-existing
row's id and leaves the table unchanged, and `create_user` preserves
username uniqueness. -/
theorem create_user_idempotent (db : DBState) (username : String) :
    ((∃ u ∈ db.users, u.username = username) →
      (create_user db username).2 = db ∧
      ∃ u ∈ db.users, u.username = username ∧
        (create_user db username).1 = u.id) ∧
    (db.users.Pairwise (fun a b => a.username ≠ b.username) →
      (create_user db username).2.users.Pairwise
        (fun a b => a.username ≠ b.username)) := by
  constructor
  · intro hex
    have hne : db.users.find? (fun u => u.username == username) ≠ none := by
      intro hnone
      rcases hex with ⟨u, hu, hname⟩
      have := List.find?_eq_none.mp hnone u hu
      simp [hname] at this
    cases hfind : db.users.find? (fun u => u.username == username) with
    | none => exact absurd hfind hne
    | some u0 =>
      have hmem := List.mem_of_find?_eq_some hfind
      have hp := List.find?_some hfind
      simp only [beq_iff_eq] at hp
      unfold create_user
      rw [hfind]
      exact ⟨rfl, u0, hmem, hp, rfl⟩
  · intro hnd
    unfold create_user
    cases hfind : db.users.find? (fun u => u.username == username) with
    | some u0 => exact hnd
    | none =>
      simp only
      rw [List.pairwise_append]
      refine ⟨hnd, by simp, ?_⟩
      intro a ha b hb
      simp only [List.mem_singleton] at hb
      subst hb
      have := List.find?_eq_none.mp hfind a ha
      simpa using this

/-- Witness for C5 on a one-user table. -/
theorem create_user_idempotent_witness :
    (create_user
      { users := [{ id := 1, username := "alice", created_at := 0 }],
        learning_paths := [], progress := [], chat_history := [],
        nextUserId := 2, nextPathId := 1, nextProgressId := 1,
        nextChatId := 1, clock := 1 } "alice").2
      = { users := [{ id := 1, username := "alice", created_at := 0 }],
          learning_paths := [], progress := [], chat_history := [],
          nextUserId := 2, nextPathId := 1, nextProgressId := 1,
          nextChatId := 1, clock := 1 } ∧
    (create_user
      { users := [{ id := 1, username := "alice", created_at := 0 }],
        learning_paths := [], progress := [], chat_history := [],
        nextUserId := 2, nextPathId := 1, nextProgressId := 1,
        nextChatId := 1, clock := 1 } "alice").1 = 1 := by
  have h := (create_user_idempotent
    { users := [{ id := 1, username := "alice", created_at := 0 }],
      learning_paths := [], progress := [], chat_history := [],
      nextUserId := 2, nextPathId := 1, nextProgressId := 1,
      nextChatId := 1, clock := 1 } "alice").1
    ⟨{ id := 1, username := "alice", created_at := 0 }, by simp, rfl⟩
  refine ⟨h.1, ?_⟩
  rcases h.2 with ⟨u, hu, _, hid⟩
  simp only [List.mem_singleton] at hu
  rw [hid, hu]

/-! ## Claim C4 (update_progress upsert) -/

/-- Lemma: `find?` returns the head of the filtered list. -/
theorem find?_eq_head?_filter {α : Type} (p : α → Bool) (l : List α) :
    l.find? p = (l.filter p).head? := by
  induction l with
  | nil => rfl
  | cons a t ih =>
    cases hp : p a with
    | true =>
      rw [List.find?_cons_of_pos _ hp, List.filter_cons_of_pos hp,
        List.head?_cons]
    | false =>
      rw [List.find?_cons_of_neg _ (by simp [hp]),
        List.filter_cons_of_neg (by simp [hp]), ih]

/-- A list of length at most one whose head is `a` is exactly `[a]`. -/
theorem eq_singleton_of_head?_length {α : Type} (l : List α) (a : α)
    (hh : l.head? = some a) (hl : l.length ≤ 1) : l = [a] := by
  cases l with
  | nil => cases hh
  | cons b t =>
    cases t with
    | nil =>
      simp only [List.head?_cons, Option.some_inj] at hh
      rw [hh]
    | cons c t2 => simp at hl

/-- The `UPDATE` branch's row transformer leaves the (user, path, module)
key of every row unchanged. -/
theorem progressMatches_applyUpd (u pa : Nat) (mo : String) (i : Nat)
    (s : String) (pj n : Option String) (clk : Nat) (r : ProgressRow) :
    progressMatches u pa mo
        (if r.id = i then applyProgressUpd s pj n clk r else r)
      = progressMatches u pa mo r := by
  by_cases h : r.id = i <;> simp [h, progressMatches, applyProgressUpd]

/-- Filtering commutes with mapping a function that preserves the
predicate. -/
theorem filter_map_comm {α : Type} (p : α → Bool) (f : α → α) (l : List α)
    (h : ∀ a ∈ l, p (f a) = p a) :
    (l.map f).filter p = (l.filter p).map f := by
  induction l with
  | nil => rfl
  | cons a t ih =>
    have hmem : ∀ b ∈ t, p (f b) = p b :=
      fun b hb => h b (List.mem_cons_of_mem a hb)
    have ha := h a (List.mem_cons_self a t)
    simp only [List.map_cons, List.filter_cons, ha]
    cases hp : p a with
    | true => simp [ih hmem]
    | false => simp [ih hmem]

/-- One `update_progress` call leaves exactly one row for its
(user, path, module) key — provided the table held at most one before — and
that row carries the new status. -/
theorem update_progress_single (db : DBState) (u pa : Nat) (mo s : String)
    (pc : Option (List String)) (n : Option String)
    (hcount : (db.progress.filter (progressMatches u pa mo)).length ≤ 1) :
    ∃ r : ProgressRow,
      (update_progress db u pa mo s pc n).progress.filter
          (progressMatches u pa mo) = [r] ∧ r.status = s := by
  unfold update_progress
  cases hfind : db.progress.find? (progressMatches u pa mo) with
  | none =>
    simp only
    have hnil : db.progress.filter (progressMatches u pa mo) = [] := by
      rw [List.filter_eq_nil_iff]
      exact fun x hx => by
        simpa using List.find?_eq_none.mp hfind x hx
    refine ⟨{ id := db.nextProgressId, user_id := u, path_id := pa,
              module_id := mo, status := s,
              projects_completed := projectsJson pc, notes := n,
              updated_at := db.clock }, ?_, rfl⟩
    have hrow : progressMatches u pa mo
        { id := db.nextProgressId, user_id := u, path_id := pa,
          module_id := mo, status := s,
          projects_completed := projectsJson pc, notes := n,
          updated_at := db.clock } = true := by
      simp [progressMatches]
    rw [List.filter_append, hnil, List.nil_append]
    simp [List.filter_cons, hrow]
  | some row =>
    simp only
    have hhead : (db.progress.filter (progressMatches u pa mo)).head?
        = some row := by
      rw [← find?_eq_head?_filter]
      exact hfind
    have hsingle := eq_singleton_of_head?_length _ _ hhead hcount
    have hcomm : ∀ r ∈ db.progress,
        (progressMatches u pa mo
          (if r.id = row.id then
            applyProgressUpd s (projectsJson pc) n db.clock r
          else r))
        = progressMatches u pa mo r :=
      fun r _ => progressMatches_applyUpd u pa mo row.id s
        (projectsJson pc) n db.clock r
    refine ⟨applyProgressUpd s (projectsJson pc) n db.clock row, ?_, rfl⟩
    rw [filter_map_comm _ _ _ hcomm, hsingle]
    simp

/-- C4: two successive `update_progress` calls for the same
(user, path, module) key with two different statuses leave exactly one row
for that key, carrying the second call's status. -/
theorem update_progress_upsert (db : DBState) (u pa : Nat)
    (mo s1 s2 : String) (pc1 pc2 : Option (List String))
    (n1 n2 : Option String)
    (hcount : (db.progress.filter (progressMatches u pa mo)).length ≤ 1)
    (_hdiff : s1 ≠ s2) :
    ∃ r : ProgressRow,
      (update_progress (update_progress db u pa mo s1 pc1 n1)
          u pa mo s2 pc2 n2).progress.filter (progressMatches u pa mo)
        = [r] ∧ r.status = s2 := by
  rcases update_progress_single db u pa mo s1 pc1 n1 hcount with ⟨r1, hr1, _⟩
  have hcount2 : ((update_progress db u pa mo s1 pc1 n1).progress.filter
      (progressMatches u pa mo)).length ≤ 1 := by
    rw [hr1]
    simp
  exact update_progress_single _ u pa mo s2 pc2 n2 hcount2

/-- Witness for C4 starting from an empty progress table. -/
theorem update_progress_upsert_witness :
    (((update_progress
        (update_progress
          { users := [], learning_paths := [], progress := [],
            chat_history := [], nextUserId := 1, nextPathId := 1,
            nextProgressId := 1, nextChatId := 1, clock := 0 }
          1 1 "module_1" "in_progress" none none)
        1 1 "module_1" "completed" none none).progress.filter
      (progressMatches 1 1 "module_1")).map (fun r => r.status))
      = ["completed"] := by
  rcases update_progress_upsert
    { users := [], learning_paths := [], progress := [],
      chat_history := [], nextUserId := 1, nextPathId := 1,
      nextProgressId := 1, nextChatId := 1, clock := 0 }
    1 1 "module_1" "in_progress" "completed" none none none none
    (by decide) (by decide) with ⟨r, hr, hs⟩
  rw [hr, List.map_cons, hs]
  rfl

/-! ## Claim C10 (get_chat_history) -/

/-- Descending insertion permutes the element onto the list. -/
theorem insertByKeyDesc_perm {α : Type} (key : α → Nat) (a : α)
    (l : List α) : List.Perm (insertByKeyDesc key a l) (a :: l) := by
  induction l with
  | nil => exact List.Perm.refl _
  | cons b t ih =>
    unfold insertByKeyDesc
    by_cases h : key b < key a
    · rw [if_pos h]
    · rw [if_neg h]
      exact (ih.cons b).trans (List.Perm.swap a b t)

/-- Descending sort is a permutation. -/
theorem sortByKeyDesc_perm {α : Type} (key : α → Nat) (l : List α) :
    List.Perm (sortByKeyDesc key l) l := by
  induction l with
  | nil => exact List.Perm.refl _
  | cons a t ih =>
    unfold sortByKeyDesc
    exact (insertByKeyDesc_perm key a _).trans (ih.cons a)

/-- Descending insertion preserves descending sortedness. -/
theorem insertByKeyDesc_sorted {α : Type} (key : α → Nat) (a : α)
    (l : List α) (h : l.Pairwise (fun x y => key y ≤ key x)) :
    (insertByKeyDesc key a l).Pairwise (fun x y => key y ≤ key x) := by
  induction l with
  | nil => simp [insertByKeyDesc]
  | cons b t ih =>
    rw [List.pairwise_cons] at h
    unfold insertByKeyDesc
    by_cases hlt : key b < key a
    · rw [if_pos hlt, List.pairwise_cons]
      refine ⟨?_, List.pairwise_cons.mpr h⟩
      intro x hx
      rcases List.mem_cons.mp hx with hxb | hxt
      · rw [hxb]
        exact Nat.le_of_lt hlt
      · exact le_trans (h.1 x hxt) (Nat.le_of_lt hlt)
    · rw [if_neg hlt, List.pairwise_cons]
      refine ⟨?_, ih h.2⟩
      intro x hx
      have hx2 : x ∈ a :: t := (insertByKeyDesc_perm key a t).mem_iff.mp hx
      rcases List.mem_cons.mp hx2 with hxa | hxt
      · rw [hxa]
        exact Nat.le_of_not_lt hlt
      · exact h.1 x hxt

/-- Descending sort produces a descending-sorted list. -/
theorem sortByKeyDesc_sorted {α : Type} (key : α → Nat) (l : List α) :
    (sortByKeyDesc key l).Pairwise (fun x y => key y ≤ key x) := by
  induction l with
  | nil => simp [sortByKeyDesc]
  | cons a t ih =>
    unfold sortByKeyDesc
    exact insertByKeyDesc_sorted key a _ ih

/-- C10: `get_chat_history` returns at most `limit` rows; exactly `limit`
when more matching rows exist; the result is in ascending timestamp order;
every returned row is a matching stored row; and every returned row's
timestamp is at least that of every matching row left out. -/
theorem get_chat_history_spec (db : DBState) (u pa limit : Nat) :
    (get_chat_history db u pa limit).length ≤ limit ∧
    (limit < (db.chat_history.filter (chatMatches u pa)).length →
      (get_chat_history db u pa limit).length = limit) ∧
    (get_chat_history db u pa limit).Pairwise
      (fun a b => a.timestamp ≤ b.timestamp) ∧
    (∀ r ∈ get_chat_history db u pa limit,
      r ∈ db.chat_history.filter (chatMatches u pa)) ∧
    (∀ a ∈ get_chat_history db u pa limit,
      ∀ b ∈ db.chat_history.filter (chatMatches u pa),
        b ∉ get_chat_history db u pa limit →
          b.timestamp ≤ a.timestamp) := by
  have hperm : List.Perm
      (sortByKeyDesc (fun r => r.timestamp)
        (db.chat_history.filter (chatMatches u pa)))
      (db.chat_history.filter (chatMatches u pa)) :=
    sortByKeyDesc_perm _ _
  have hsorted := sortByKeyDesc_sorted (fun r => r.timestamp)
    (db.chat_history.filter (chatMatches u pa))
  have hres : get_chat_history db u pa limit
      = ((sortByKeyDesc (fun r => r.timestamp)
          (db.chat_history.filter (chatMatches u pa))).take limit).reverse :=
    rfl
  rw [hres]
  refine ⟨?_, ?_, ?_, ?_, ?_⟩
  · simp [List.length_reverse, List.length_take]
  · intro hlt
    have hlen := hperm.length_eq
    simp only [List.length_reverse, List.length_take]
    omega
  · rw [List.pairwise_reverse]
    exact hsorted.sublist (List.take_sublist _ _)
  · intro r hr
    rw [List.mem_reverse] at hr
    exact hperm.mem_iff.mp (List.take_subset _ _ hr)
  · intro a ha b hb hnb
    rw [List.mem_reverse] at ha
    rw [List.mem_reverse] at hnb
    have hbS : b ∈ sortByKeyDesc (fun r => r.timestamp)
        (db.chat_history.filter (chatMatches u pa)) :=
      hperm.mem_iff.mpr hb
    have hsplit := (List.take_append_drop limit
      (sortByKeyDesc (fun r => r.timestamp)
        (db.chat_history.filter (chatMatches u pa)))).symm
    rcases List.mem_append.mp (hsplit ▸ hbS) with hbt | hbd
    · exact absurd hbt hnb
    · have hpw := List.pairwise_append.mp (hsplit ▸ hsorted)
      exact hpw.2.2 a ha b hbd

/-- Witness for C10 on three stored messages and a limit of two. -/
theorem get_chat_history_spec_witness :
    (get_chat_history
      { users := [], learning_paths := [], progress := [],
        chat_history :=
          [{ id := 1, user_id := 1, path_id := 1, role := "user",
             content := "a", timestamp := 1 },
           { id := 2, user_id := 1, path_id := 1, role := "assistant",
             content := "b", timestamp := 2 },
           { id := 3, user_id := 1, path_id := 1, role := "user",
             content := "c", timestamp := 3 }],
        nextUserId := 1, nextPathId := 1, nextProgressId := 1,
        nextChatId := 4, clock := 4 } 1 1 2).length = 2 ∧
    ({ id := 1, user_id := 1, path_id := 1, role := "user",
       content := "a", timestamp := 1 } : ChatRow).timestamp
      ≤ ({ id := 3, user_id := 1, path_id := 1, role := "user",
           content := "c", timestamp := 3 } : ChatRow).timestamp := by
  have h := get_chat_history_spec
    { users := [], learning_paths := [], progress := [],
      chat_history :=
        [{ id := 1, user_id := 1, path_id := 1, role := "user",
           content := "a", timestamp := 1 },
         { id := 2, user_id := 1, path_id := 1, role := "assistant",
           content := "b", timestamp := 2 },
         { id := 3, user_id := 1, path_id := 1, role := "user",
           content := "c", timestamp := 3 }],
      nextUserId := 1, nextPathId := 1, nextProgressId := 1,
      nextChatId := 4, clock := 4 } 1 1 2
  refine ⟨h.2.1 (by decide), ?_⟩
  exact h.2.2.2.2
    { id := 3, user_id := 1, path_id := 1, role := "user",
      content := "c", timestamp := 3 } (by decide)
    { id := 1, user_id := 1, path_id := 1, role := "user",
      content := "a", timestamp := 1 } (by decide) (by decide)

/-! ## JSON parser lemmas (towards C3 and C7) -/

/-- Whitespace skipping is the identity on a non-whitespace head. -/
theorem skipWs_cons_not_ws (c : Char) (cs : List Char)
    (h : isWs c = false) : skipWs (c :: cs) = c :: cs := by
  simp [skipWs, List.dropWhile_cons, h]

/-- Every digit character produced by `digitChar` is a decimal digit. -/
theorem digitChar_isDigit (d : Nat) : (digitChar d).isDigit = true := by
  unfold digitChar
  split <;> decide

/-- Lemma: `digitVal` inverts `digitChar` on digits. -/
theorem digitVal_digitChar (d : Nat) (hd : d < 10) :
    digitVal (digitChar d) = d := by
  interval_cases d <;> rfl

/-- A decimal digit character is not whitespace. -/
theorem not_ws_of_digit (c : Char) (h : c.isDigit = true) :
    isWs c = false := by
  cases hw : isWs c with
  | false => rfl
  | true =>
    exfalso
    simp only [isWs, Bool.or_eq_true, decide_eq_true_eq] at hw
    rcases hw with ((hc | hc) | hc) | hc <;> subst hc <;>
      exact absurd h (by decide)

/-- The decimal representation of a natural number is never empty. -/
theorem natChars_ne_nil (n : Nat) : natChars n ≠ [] := by
  unfold natChars
  by_cases h : n = 0
  · simp [h]
  · simp only [h, if_false]
    intro hc
    rw [List.reverse_eq_nil_iff, List.map_eq_nil_iff] at hc
    exact Nat.digits_ne_nil_iff_ne_zero.mpr h hc

/-- Every character of the decimal representation is a digit. -/
theorem natChars_all_digit (n : Nat) :
    ∀ c ∈ natChars n, c.isDigit = true := by
  unfold natChars
  by_cases h : n = 0
  · simp only [h, if_true]
    intro c hc
    simp only [List.mem_singleton] at hc
    rw [hc]
    decide
  · simp only [h, if_false]
    intro c hc
    rw [List.mem_reverse, List.mem_map] at hc
    rcases hc with ⟨d, _, hd⟩
    rw [← hd]
    exact digitChar_isDigit d

/-- Lemma: `takeWhile` passes over a block that wholly satisfies the predicate. -/
theorem takeWhile_append_of_all {α : Type} (p : α → Bool) (l r : List α)
    (h : ∀ a ∈ l, p a = true) :
    (l ++ r).takeWhile p = l ++ r.takeWhile p := by
  induction l with
  | nil => simp
  | cons a t ih =>
    have ha := h a (List.mem_cons_self a t)
    simp only [List.cons_append, List.takeWhile_cons, ha, if_true]
    rw [ih (fun b hb => h b (List.mem_cons_of_mem a hb))]

/-- Lemma: `dropWhile` consumes a block that wholly satisfies the predicate. -/
theorem dropWhile_append_of_all {α : Type} (p : α → Bool) (l r : List α)
    (h : ∀ a ∈ l, p a = true) :
    (l ++ r).dropWhile p = r.dropWhile p := by
  induction l with
  | nil => simp
  | cons a t ih =>
    have ha := h a (List.mem_cons_self a t)
    simp only [List.cons_append, List.dropWhile_cons, ha, if_true]
    exact ih (fun b hb => h b (List.mem_cons_of_mem a hb))

/-- A remainder with a non-digit head contributes no digits. -/
theorem takeWhile_digit_nil (rest : List Char)
    (h : headOkNum rest = true) : rest.takeWhile Char.isDigit = [] := by
  cases rest with
  | nil => rfl
  | cons c t =>
    simp only [headOkNum, Bool.not_eq_true'] at h
    simp [List.takeWhile_cons, h]

/-- A remainder with a non-digit head survives digit dropping. -/
theorem dropWhile_digit_id (rest : List Char)
    (h : headOkNum rest = true) : rest.dropWhile Char.isDigit = rest := by
  cases rest with
  | nil => rfl
  | cons c t =>
    simp only [headOkNum, Bool.not_eq_true'] at h
    simp [List.dropWhile_cons, h]

/-- Folding the decimal digits of `L` (most significant first) accumulates
`Nat.ofDigits` on top of the incoming accumulator. -/
theorem foldl_digits (L : List Nat) (hL : ∀ d ∈ L, d < 10) (a : Nat) :
    ((L.map digitChar).reverse).foldl (fun acc c => 10 * acc + digitVal c) a
      = a * 10 ^ L.length + Nat.ofDigits 10 L := by
  induction L generalizing a with
  | nil => simp
  | cons d t ih =>
    have hd := hL d (List.mem_cons_self d t)
    have ht : ∀ x ∈ t, x < 10 := fun x hx => hL x (List.mem_cons_of_mem d hx)
    simp only [List.map_cons, List.reverse_cons, List.foldl_append,
      List.foldl_cons, List.foldl_nil]
    rw [ih ht a, digitVal_digitChar d hd, Nat.ofDigits_cons, List.length_cons]
    ring

/-- The digit fold recovers the number from its decimal representation. -/
theorem foldl_natChars (n : Nat) :
    (natChars n).foldl (fun acc c => 10 * acc + digitVal c) 0 = n := by
  unfold natChars
  by_cases h : n = 0
  · simp [h, digitVal]
  · simp only [h, if_false]
    rw [foldl_digits (Nat.digits 10 n)
      (fun d hd => Nat.digits_lt_base (by norm_num) hd) 0]
    simp [Nat.ofDigits_digits]

/-- Lemma: `parseNat` consumes exactly a serialized natural number. -/
theorem parseNat_natChars (n : Nat) (rest : List Char)
    (h : headOkNum rest = true) :
    parseNat (natChars n ++ rest) = some (n, rest) := by
  unfold parseNat
  have htw : (natChars n ++ rest).takeWhile Char.isDigit = natChars n := by
    rw [takeWhile_append_of_all _ _ _ (natChars_all_digit n),
      takeWhile_digit_nil rest h, List.append_nil]
  have hdw : (natChars n ++ rest).dropWhile Char.isDigit = rest := by
    rw [dropWhile_append_of_all _ _ _ (natChars_all_digit n),
      dropWhile_digit_id rest h]
  rw [htw, hdw]
  simp only [natChars_ne_nil n, if_false]
  rw [foldl_natChars n]

/-- Rebuilding a string from its character data is the identity. -/
theorem string_mk_data (s : String) : String.mk s.data = s := rfl

/-- The string-body parser accepts a closing quote. -/
theorem parseStrBody_quote (rest : List Char) :
    parseStrBody ('"' :: rest) = some ([], rest) := by
  rw [parseStrBody.eq_def]
  simp

/-- The string-body parser passes an unescaped ordinary character. -/
theorem parseStrBody_cons_plain (c : Char) (rest : List Char)
    (h1 : c ≠ '"') (h2 : c ≠ '\\') :
    parseStrBody (c :: rest) =
      match parseStrBody rest with
      | some (s, r) => some (c :: s, r)
      | none => none := by
  rw [parseStrBody.eq_def]
  simp [h1, h2]

/-- The string-body parser decodes a backslash escape. -/
theorem parseStrBody_esc (e u : Char) (rest : List Char)
    (hu : unescapeChar e = some u) :
    parseStrBody ('\\' :: e :: rest) =
      match parseStrBody rest with
      | some (s, r) => some (u :: s, r)
      | none => none := by
  rw [parseStrBody.eq_def]
  simp [hu]

/-- The string-body parser inverts the string-body serializer. -/
theorem parseStrBody_roundtrip (s : List Char) (rest : List Char) :
    parseStrBody (serStrChars s ++ '"' :: rest) = some (s, rest) := by
  induction s with
  | nil =>
    rw [show serStrChars [] ++ '"' :: rest = '"' :: rest from rfl,
      parseStrBody_quote]
  | cons c t ih =>
    by_cases hc : c = '"' ∨ c = '\\'
    · have hesc : escChar c = ['\\', c] := by
        unfold escChar
        rw [if_pos hc]
      have hun : unescapeChar c = some c := by
        rcases hc with hc | hc <;> rw [hc] <;> rfl
      have hser : serStrChars (c :: t) ++ '"' :: rest
          = '\\' :: c :: (serStrChars t ++ '"' :: rest) := by
        simp [serStrChars, hesc]
      rw [hser, parseStrBody_esc c c _ hun, ih]
    · push_neg at hc
      have hesc : escChar c = [c] := by
        unfold escChar
        rw [if_neg (by tauto)]
      have hser : serStrChars (c :: t) ++ '"' :: rest
          = c :: (serStrChars t ++ '"' :: rest) := by
        simp [serStrChars, hesc]
      rw [hser, parseStrBody_cons_plain c _ hc.1 hc.2, ih]

/-- A value-start character is not whitespace. -/
theorem not_ws_of_startOk (c : Char) (h : startOk c = true) :
    isWs c = false := by
  simp only [startOk, Bool.or_eq_true, decide_eq_true_eq] at h
  rcases h with ((((((hd | hc) | hc) | hc) | hc) | hc) | hc) | hc
  · exact not_ws_of_digit c hd
  all_goals subst hc; rfl

/-- A value-start character is not a closing bracket. -/
theorem startOk_ne_rbracket (c : Char) (h : startOk c = true) :
    c ≠ ']' := by
  intro heq
  rw [heq] at h
  exact absurd h (by decide)

/-- A value-start character is not a closing brace. -/
theorem startOk_ne_rbrace (c : Char) (h : startOk c = true) :
    c ≠ '\x7d' := by
  intro heq
  rw [heq] at h
  exact absurd h (by decide)

/-- Every serialized value begins with a value-start character. -/
theorem serV_start (x : Json) :
    ∃ c t, serV x = c :: t ∧ startOk c = true := by
  cases x with
  | null => exact ⟨'n', _, rfl, by decide⟩
  | bool b => cases b
              · exact ⟨'f', _, rfl, by decide⟩
              · exact ⟨'t', _, rfl, by decide⟩
  | num i =>
    cases i with
    | ofNat n =>
      cases hnc : natChars n with
      | nil => exact absurd hnc (natChars_ne_nil n)
      | cons c t =>
        refine ⟨c, t, ?_, ?_⟩
        · show intChars (Int.ofNat n) = c :: t
          rw [show intChars (Int.ofNat n) = natChars n from rfl, hnc]
        · have hd : c.isDigit = true :=
            natChars_all_digit n c (by rw [hnc]; exact List.mem_cons_self c t)
          simp [startOk, hd]
    | negSucc m => exact ⟨'-', _, rfl, by decide⟩
  | str s => exact ⟨'"', _, rfl, by decide⟩
  | arr xs => cases xs
              · exact ⟨'[', _, rfl, by decide⟩
              · exact ⟨'[', _, rfl, by decide⟩
  | obj kvs => cases kvs
               · exact ⟨'\x7b', _, rfl, by decide⟩
               · exact ⟨'\x7b', _, rfl, by decide⟩

/-- The serialized tail of an array never starts with a digit. -/
theorem headOkNum_serL (xs : JsonList) (rest : List Char) :
    headOkNum (serL xs ++ ']' :: rest) = true := by
  cases xs with
  | nil => rfl
  | cons y ys => rfl

/-- The serialized tail of an object never starts with a digit. -/
theorem headOkNum_serO (kvs : JsonObj) (rest : List Char) :
    headOkNum (serO kvs ++ '\x7d' :: rest) = true := by
  cases kvs with
  | nil => rfl
  | cons k v t => rfl

/-- Every size is at least one for values. -/
theorem sizeV_pos (x : Json) : 1 ≤ sizeV x := by
  cases x <;> simp [sizeV]

/-- One-step reduction of the value parser on a non-whitespace head. -/
theorem parseVal_cons (f : Nat) (c : Char) (r : List Char)
    (h : isWs c = false) :
    parseVal (f + 1) (c :: r) =
      (if c.isDigit then
        match parseNat (c :: r) with
        | some (n, r2) => some (.num ((n : Int)), r2)
        | none => none
      else if c = '-' then
        match parseNat r with
        | some (n, r2) => some (.num (-(n : Int)), r2)
        | none => none
      else if c = 'n' then
        match dropLit ['u', 'l', 'l'] r with
        | some r2 => some (.null, r2)
        | none => none
      else if c = 't' then
        match dropLit ['r', 'u', 'e'] r with
        | some r2 => some (.bool true, r2)
        | none => none
      else if c = 'f' then
        match dropLit ['a', 'l', 's', 'e'] r with
        | some r2 => some (.bool false, r2)
        | none => none
      else if c = '"' then
        match parseStrBody r with
        | some (s, r2) => some (.str (String.mk s), r2)
        | none => none
      else if c = '[' then
        if headIs (skipWs r) ']' then some (.arr .nil, (skipWs r).tail)
        else
          match parseArrElems f (skipWs r) with
          | some (xs, r2) => some (.arr xs, r2)
          | none => none
      else if c = '\x7b' then
        if headIs (skipWs r) '\x7d' then some (.obj .nil, (skipWs r).tail)
        else
          match parseObjElems f (skipWs r) with
          | some (kvs, r2) => some (.obj kvs, r2)
          | none => none
      else none) := by
  rw [parseVal]
  rw [skipWs_cons_not_ws c r h]

/-- Serializer equation: null. -/
theorem serV_null : serV .null = ['n', 'u', 'l', 'l'] := rfl

/-- Serializer equation: true. -/
theorem serV_true : serV (.bool true) = ['t', 'r', 'u', 'e'] := rfl

/-- Serializer equation: false. -/
theorem serV_false : serV (.bool false) = ['f', 'a', 'l', 's', 'e'] := rfl

/-- Serializer equation: numbers. -/
theorem serV_num (i : Int) : serV (.num i) = intChars i := rfl

/-- Serializer equation: strings. -/
theorem serV_str (s : String) :
    serV (.str s) = '"' :: serStrChars s.data ++ ['"'] := rfl

/-- Serializer equation: empty array. -/
theorem serV_arr_nil : serV (.arr .nil) = ['[', ']'] := rfl

/-- Serializer equation: non-empty array. -/
theorem serV_arr_cons (x : Json) (xs : JsonList) :
    serV (.arr (.cons x xs)) = '[' :: (serV x ++ serL xs) ++ [']'] := rfl

/-- Serializer equation: empty object. -/
theorem serV_obj_nil : serV (.obj .nil) = ['\x7b', '\x7d'] := rfl

/-- Serializer equation: non-empty object. -/
theorem serV_obj_cons (k : String) (v : Json) (kvs : JsonObj) :
    serV (.obj (.cons k v kvs))
      = '\x7b' :: (('"' :: serStrChars k.data ++ ['"', ':'] ++ serV v)
          ++ serO kvs) ++ ['\x7d'] := rfl

/-- Serializer equation: array tail nil. -/
theorem serL_nil : serL .nil = [] := rfl

/-- Serializer equation: array tail cons. -/
theorem serL_cons (x : Json) (xs : JsonList) :
    serL (.cons x xs) = ',' :: serV x ++ serL xs := rfl

/-- Serializer equation: object tail nil. -/
theorem serO_nil : serO .nil = [] := rfl

/-- Serializer equation: object tail cons. -/
theorem serO_cons (k : String) (v : Json) (kvs : JsonObj) :
    serO (.cons k v kvs)
      = ',' :: (('"' :: serStrChars k.data ++ ['"', ':'] ++ serV v)
          ++ serO kvs) := rfl

/-- Size equation: arrays. -/
theorem sizeV_arr (xs : JsonList) : sizeV (.arr xs) = 1 + sizeL xs := rfl

/-- Size equation: objects. -/
theorem sizeV_obj (kvs : JsonObj) : sizeV (.obj kvs) = 1 + sizeO kvs := rfl

/-- Size equation: array tail cons. -/
theorem sizeL_cons (x : Json) (xs : JsonList) :
    sizeL (.cons x xs) = 1 + sizeV x + sizeL xs := rfl

/-- Size equation: object tail cons. -/
theorem sizeO_cons (k : String) (v : Json) (kvs : JsonObj) :
    sizeO (.cons k v kvs) = 1 + sizeV v + sizeO kvs := rfl

/-- Whitespace skipping: colon head. -/
theorem skipWs_colon (cs : List Char) : skipWs (':' :: cs) = ':' :: cs :=
  skipWs_cons_not_ws ':' cs (by decide)

/-- Whitespace skipping: comma head. -/
theorem skipWs_comma (cs : List Char) : skipWs (',' :: cs) = ',' :: cs :=
  skipWs_cons_not_ws ',' cs (by decide)

/-- Whitespace skipping: closing-bracket head. -/
theorem skipWs_rbracket (cs : List Char) : skipWs (']' :: cs) = ']' :: cs :=
  skipWs_cons_not_ws ']' cs (by decide)

/-- Whitespace skipping: closing-brace head. -/
theorem skipWs_rbrace (cs : List Char) :
    skipWs ('\x7d' :: cs) = '\x7d' :: cs :=
  skipWs_cons_not_ws '\x7d' cs (by decide)

/-- One-step reduction of the object-member parser on a quote head. -/
theorem parseObjElems_cons (f : Nat) (c : Char) (r : List Char)
    (h : isWs c = false) :
    parseObjElems (f + 1) (c :: r) =
      (if c = '"' then
        match parseStrBody r with
        | some (k, r2) =>
          match skipWs r2 with
          | ':' :: r3 =>
            match parseVal f r3 with
            | some (v, r4) =>
              match skipWs r4 with
              | ',' :: r5 =>
                match parseObjElems f r5 with
                | some (kvs, r6) => some (.cons (String.mk k) v kvs, r6)
                | none => none
              | '\x7d' :: r5 => some (.cons (String.mk k) v .nil, r5)
              | _ => none
            | none => none
          | _ => none
        | none => none
      else none) := by
  rw [parseObjElems]
  rw [skipWs_cons_not_ws c r h]

/-- The fueled parser inverts the serializer whenever the fuel is at least
the structural size: simultaneously for values, array tails (up to the
closing bracket) and object tails (up to the closing brace). -/
theorem parse_ser (fuel : Nat) :
    (∀ (x : Json) (rest : List Char), sizeV x ≤ fuel →
      headOkNum rest = true →
      parseVal fuel (serV x ++ rest) = some (x, rest)) ∧
    (∀ (x : Json) (xs : JsonList) (rest : List Char),
      1 + sizeV x + sizeL xs ≤ fuel →
      parseArrElems fuel (serV x ++ (serL xs ++ ']' :: rest))
        = some (.cons x xs, rest)) ∧
    (∀ (k : String) (v : Json) (kvs : JsonObj) (rest : List Char),
      1 + sizeV v + sizeO kvs ≤ fuel →
      parseObjElems fuel
        ('"' :: (serStrChars k.data ++ '"' :: ':' ::
          (serV v ++ (serO kvs ++ '\x7d' :: rest))))
        = some (.cons k v kvs, rest)) := by
  induction fuel with
  | zero =>
    refine ⟨?_, ?_, ?_⟩
    · intro x rest hx _
      have := sizeV_pos x
      omega
    · intro x xs rest hx
      omega
    · intro k v kvs rest hx
      omega
  | succ f ih =>
    obtain ⟨ih1, ih2, ih3⟩ := ih
    refine ⟨?_, ?_, ?_⟩
    · intro x rest hx hrest
      cases x with
      | null =>
        rw [show serV .null ++ rest = 'n' :: 'u' :: 'l' :: 'l' :: rest
          from rfl]
        rw [parseVal_cons f 'n' _ (by decide)]
        simp [dropLit]
      | bool b =>
        cases b with
        | false =>
          rw [show serV (.bool false) ++ rest
            = 'f' :: 'a' :: 'l' :: 's' :: 'e' :: rest from rfl]
          rw [parseVal_cons f 'f' _ (by decide)]
          simp [dropLit]
        | true =>
          rw [show serV (.bool true) ++ rest
            = 't' :: 'r' :: 'u' :: 'e' :: rest from rfl]
          rw [parseVal_cons f 't' _ (by decide)]
          simp [dropLit]
      | num i =>
        cases i with
        | ofNat n =>
          cases hnc : natChars n with
          | nil => exact absurd hnc (natChars_ne_nil n)
          | cons c t =>
            have hcd : c.isDigit = true :=
              natChars_all_digit n c
                (by rw [hnc]; exact List.mem_cons_self c t)
            have hser : serV (.num (Int.ofNat n)) ++ rest
                = c :: (t ++ rest) := by
              rw [serV_num, show intChars (Int.ofNat n) = natChars n
                from rfl, hnc]
              rfl
            rw [hser, parseVal_cons f c _ (not_ws_of_digit c hcd)]
            simp only [hcd, if_true]
            have hpn : parseNat (c :: (t ++ rest)) = some (n, rest) := by
              rw [show c :: (t ++ rest) = (c :: t) ++ rest from rfl, ← hnc]
              exact parseNat_natChars n rest hrest
            rw [hpn]
            rfl
        | negSucc m =>
          have hser : serV (.num (Int.negSucc m)) ++ rest
              = '-' :: (natChars (m + 1) ++ rest) := rfl
          rw [hser, parseVal_cons f '-' _ (by decide)]
          rw [if_neg (by decide), if_pos rfl,
            parseNat_natChars (m + 1) rest hrest]
          have hneg : (-((((m : Nat) + 1 : Nat)) : Int)) = Int.negSucc m := by
            rw [Int.negSucc_eq]
            push_cast
            ring
          exact congrArg (fun z => some (Json.num z, rest)) hneg
      | str s =>
        have hser : serV (.str s) ++ rest
            = '"' :: (serStrChars s.data ++ '"' :: rest) := by
          rw [serV_str]
          simp
        rw [hser, parseVal_cons f '"' _ (by decide)]
        rw [if_neg (by decide), if_neg (by decide), if_neg (by decide),
          if_neg (by decide), if_neg (by decide), if_pos rfl,
          parseStrBody_roundtrip s.data rest]
      | arr xs =>
        cases xs with
        | nil =>
          rw [show serV (.arr .nil) ++ rest = '[' :: (']' :: rest)
            from rfl]
          rw [parseVal_cons f '[' _ (by decide)]
          rw [if_neg (by decide), if_neg (by decide), if_neg (by decide),
            if_neg (by decide), if_neg (by decide), if_neg (by decide),
            if_pos rfl, skipWs_cons_not_ws ']' _ (by decide)]
          rw [if_pos (by rfl)]
          rfl
        | cons y ys =>
          obtain ⟨c, t, hct, hok⟩ := serV_start y
          have hser : serV (.arr (.cons y ys)) ++ rest
              = '[' :: (serV y ++ (serL ys ++ ']' :: rest)) := by
            rw [serV_arr_cons]
            simp
          rw [hser, parseVal_cons f '[' _ (by decide)]
          rw [if_neg (by decide), if_neg (by decide), if_neg (by decide),
            if_neg (by decide), if_neg (by decide), if_neg (by decide),
            if_pos rfl]
          have hskip : skipWs (serV y ++ (serL ys ++ ']' :: rest))
              = serV y ++ (serL ys ++ ']' :: rest) := by
            rw [hct, List.cons_append,
              skipWs_cons_not_ws _ _ (not_ws_of_startOk c hok)]
          have hhead : headIs (serV y ++ (serL ys ++ ']' :: rest)) ']'
              = false := by
            rw [hct, List.cons_append]
            simp [headIs, startOk_ne_rbracket c hok]
          rw [hskip, hhead]
          rw [if_neg (by simp)]
          rw [sizeV_arr, sizeL_cons] at hx
          rw [ih2 y ys rest (by omega)]
      | obj kvs =>
        cases kvs with
        | nil =>
          rw [show serV (.obj .nil) ++ rest = '\x7b' :: ('\x7d' :: rest)
            from rfl]
          rw [parseVal_cons f '\x7b' _ (by decide)]
          rw [if_neg (by decide), if_neg (by decide), if_neg (by decide),
            if_neg (by decide), if_neg (by decide), if_neg (by decide),
            if_neg (by decide), if_pos rfl,
            skipWs_cons_not_ws '\x7d' _ (by decide)]
          rw [if_pos (by rfl)]
          rfl
        | cons k v kvs2 =>
          have hser : serV (.obj (.cons k v kvs2)) ++ rest
              = '\x7b' :: ('"' :: (serStrChars k.data ++ '"' :: ':' ::
                  (serV v ++ (serO kvs2 ++ '\x7d' :: rest)))) := by
            rw [serV_obj_cons]
            simp
          rw [hser, parseVal_cons f '\x7b' _ (by decide)]
          rw [if_neg (by decide), if_neg (by decide), if_neg (by decide),
            if_neg (by decide), if_neg (by decide), if_neg (by decide),
            if_neg (by decide), if_pos rfl,
            skipWs_cons_not_ws '"' _ (by decide)]
          have hhead : headIs ('"' :: (serStrChars k.data ++ '"' :: ':' ::
              (serV v ++ (serO kvs2 ++ '\x7d' :: rest)))) '\x7d'
              = false := by
            simp [headIs]
          rw [hhead]
          rw [if_neg (by simp)]
          rw [sizeV_obj, sizeO_cons] at hx
          rw [ih3 k v kvs2 rest (by omega)]
    · intro x xs rest hx
      have hpv := ih1 x (serL xs ++ ']' :: rest) (by
        have := sizeV_pos x
        omega) (headOkNum_serL xs rest)
      cases xs with
      | nil =>
        rw [parseArrElems, hpv]
        simp only [serL_nil, List.nil_append, skipWs_rbracket]
      | cons y ys =>
        have hser : serL (.cons y ys) ++ ']' :: rest
            = ',' :: (serV y ++ (serL ys ++ ']' :: rest)) := by
          rw [serL_cons]
          simp
        rw [sizeL_cons] at hx
        have hpos := sizeV_pos x
        have harr := ih2 y ys rest (by omega)
        rw [parseArrElems, hpv]
        simp only [hser, skipWs_comma, harr]
    · intro k v kvs rest hx
      have hpv := ih1 v (serO kvs ++ '\x7d' :: rest) (by omega)
        (headOkNum_serO kvs rest)
      cases kvs with
      | nil =>
        simp only [serO_nil, List.nil_append] at hpv
        rw [parseObjElems_cons f '"' _ (by decide), if_pos rfl]
        simp only [parseStrBody_roundtrip, skipWs_colon, serO_nil,
          List.nil_append, hpv, skipWs_rbrace, string_mk_data]
      | cons k2 v2 kvs2 =>
        have hser : serO (.cons k2 v2 kvs2) ++ '\x7d' :: rest
            = ',' :: ('"' :: (serStrChars k2.data ++ '"' :: ':' ::
                (serV v2 ++ (serO kvs2 ++ '\x7d' :: rest)))) := by
          rw [serO_cons]
          simp
        rw [sizeO_cons] at hx
        have hpos := sizeV_pos v
        have hrec := ih3 k2 v2 kvs2 rest (by omega)
        simp only [hser] at hpv
        rw [parseObjElems_cons f '"' _ (by decide), if_pos rfl]
        simp only [parseStrBody_roundtrip, skipWs_colon, hser, hpv,
          skipWs_comma, hrec, string_mk_data]

/-- The serialization of an integer is non-empty. -/
theorem intChars_length_pos (i : Int) : 1 ≤ (intChars i).length := by
  cases i with
  | ofNat n =>
    cases hnc : natChars n with
    | nil => exact absurd hnc (natChars_ne_nil n)
    | cons c t =>
      rw [show intChars (Int.ofNat n) = natChars n from rfl, hnc]
      simp
  | negSucc m => simp [intChars]

mutual
/-- Fuel bound: the structural size of a value is within twice its
serialized length. -/
theorem sizeV_le : ∀ x : Json, sizeV x ≤ 2 * (serV x).length
  | .null => by decide
  | .bool b => by cases b <;> decide
  | .num i => by
    have h1 := intChars_length_pos i
    rw [show sizeV (.num i) = 1 from rfl, serV_num]
    omega
  | .str s => by
    rw [show sizeV (.str s) = 1 from rfl, serV_str]
    simp only [List.length_cons, List.length_append]
    omega
  | .arr .nil => by decide
  | .arr (.cons x xs) => by
    have h1 := sizeV_le x
    have h2 := sizeL_le xs
    rw [show sizeV (.arr (.cons x xs)) = 1 + (1 + sizeV x + sizeL xs)
      from rfl, serV_arr_cons]
    simp only [List.length_cons, List.length_append]
    omega
  | .obj .nil => by decide
  | .obj (.cons k v kvs) => by
    have h1 := sizeV_le v
    have h2 := sizeO_le kvs
    rw [show sizeV (.obj (.cons k v kvs)) = 1 + (1 + sizeV v + sizeO kvs)
      from rfl, serV_obj_cons]
    simp only [List.length_cons, List.length_append]
    omega
/-- Fuel bound for array tails. -/
theorem sizeL_le : ∀ xs : JsonList, sizeL xs ≤ 2 * (serL xs).length + 2
  | .nil => by decide
  | .cons x xs => by
    have h1 := sizeV_le x
    have h2 := sizeL_le xs
    rw [sizeL_cons, serL_cons]
    simp only [List.length_cons, List.length_append]
    omega
/-- Fuel bound for object tails. -/
theorem sizeO_le : ∀ kvs : JsonObj, sizeO kvs ≤ 2 * (serO kvs).length + 2
  | .nil => by decide
  | .cons k v kvs => by
    have h1 := sizeV_le v
    have h2 := sizeO_le kvs
    rw [sizeO_cons, serO_cons]
    simp only [List.length_cons, List.length_append]
    omega
end

/-- Round trip: `loads` inverts `dumps`. -/
theorem loads_dumps (x : Json) : loads (dumps x) = some x := by
  unfold loads dumps
  rw [show (String.mk (serV x)).data = serV x from rfl]
  have hle := sizeV_le x
  have h1 := (parse_ser (2 * (serV x).length + 4)).1 x [] (by omega) rfl
  rw [List.append_nil] at h1
  rw [h1]
  rfl

/-- C7: the structured-output parse step is idempotent on already-valid
input: parsing the serialization of any JSON value yields that very value
(no `error`/`raw_response` sentinel is produced), for every operation
kind. -/
theorem parse_response_roundtrip (kind : String) (x : Json) :
    loads (dumps x) = some x ∧ parse_response kind (dumps x) = x := by
  have h := loads_dumps x
  refine ⟨h, ?_⟩
  unfold parse_response
  rw [h]

/-- C3: on every response text that is not valid JSON, the parse step
returns — without raising and without another completion call — exactly the
object with the two keys `error` (value `"Failed to parse <kind>"`) and
`raw_response` (the original text verbatim). -/
theorem parse_response_sentinel (kind text : String)
    (h : loads text = none) :
    parse_response kind text
      = .obj (.cons "error" (.str ("Failed to parse " ++ kind))
          (.cons "raw_response" (.str text) .nil)) := by
  unfold parse_response
  rw [h]

/-- Witness for C3: a truncated-brace curriculum response yields the
sentinel object verbatim. -/
theorem parse_response_sentinel_witness :
    parse_response "curriculum" "\x7b"
      = .obj (.cons "error" (.str "Failed to parse curriculum")
          (.cons "raw_response" (.str "\x7b") .nil)) := by
  rw [parse_response_sentinel "curriculum" "\x7b" (by decide)]
  decide
